import Mathlib

/-!
Shallow embedding of `src/ssl-cert.py` (takng/ssl-grader).

The script talks to OpenSSL through pyOpenSSL.  Certificates are modelled
abstractly by the fields the script consults; the pyOpenSSL calls
(`load_certificate`, `X509Store.add_cert`, `X509StoreContext.verify_certificate`)
are modelled as Lean functions over that abstraction.  A Python exception is an
`Except.error`; code outside any `try` block propagates it, a `try/except`
converts it as the Python code does.
-/

/-- One X.509 v3 extension, as the script sees it: the rendering of
`str(ext.get_short_name())` and of `ext.__str__()` (its display string,
e.g. `"DNS:a.example, DNS:b.example"` for a subjectAltName extension). -/
structure X509Ext where
  shortName : String
  display : String
deriving DecidableEq

/-- Abstract certificate: the fields of a loaded pyOpenSSL X509 object that
the script consults.  `sigValid` abstracts whether the signature on the
certificate verifies against its issuer (a fact the OpenSSL library checks
internally during `verify_certificate`). -/
structure Cert where
  subject : String
  issuer : String
  sigValid : Bool
  exts : List X509Ext
deriving DecidableEq

/-- A PEM text block: it either parses to a certificate or is malformed
(in which case `crypto.load_certificate` raises). -/
inductive Pem where
  | wellFormed (c : Cert)
  | malformed
deriving DecidableEq

/-- Model of `crypto.load_certificate(crypto.FILETYPE_PEM, _)`: returns the
certificate, or raises (`Except.error`) on a malformed input. -/
def load_certificate : Pem → Except Unit Cert
  | Pem.wellFormed c => Except.ok c
  | Pem.malformed => Except.error ()

/-- `needle` occurs as a leading block of the candidate list (helper for the
model of the Python `in` operator on strings). -/
def listHasPre : List Char → List Char → Bool
  | [], _ => true
  | _ :: _, [] => false
  | a :: as, b :: bs => a == b && listHasPre as bs

/-- Model of Python `needle in hay` for strings: substring containment. -/
def pyInAux (n : List Char) : List Char → Bool
  | [] => n.isEmpty
  | c :: rest => listHasPre n (c :: rest) || pyInAux n rest

/-- Python `needle in hay` on strings. -/
def pyIn (needle hay : String) : Bool :=
  pyInAux needle.data hay.data

/-- Model of Python `s.replace(old, new)` on character lists, fuelled by the
length of the scanned list (each step consumes at least one character, so
`fuel = l.length` suffices); replaces non-overlapping occurrences left to
right, exactly as Python does for a non-empty `old`. -/
def pyReplaceAux (old new : List Char) : Nat → List Char → List Char
  | 0, l => l
  | Nat.succ fuel, l =>
    match l with
    | [] => []
    | c :: rest =>
      if listHasPre old l && !old.isEmpty then
        new ++ pyReplaceAux old new fuel (List.drop (old.length - 1) rest)
      else
        c :: pyReplaceAux old new fuel rest

/-- Python `s.replace(old, new)` for a non-empty pattern `old`. -/
def pyReplace (s old new : String) : String :=
  String.mk (pyReplaceAux old.data new.data s.data.length s.data)

/-- Model of Python `s.split(sep)` on character lists for a non-empty
separator, fuelled like `pyReplaceAux`; `acc` holds the current field in
reverse. -/
def pySplitAux (sep : List Char) : Nat → List Char → List Char → List (List Char)
  | 0, acc, l => [acc.reverse ++ l]
  | Nat.succ fuel, acc, l =>
    match l with
    | [] => [acc.reverse]
    | c :: rest =>
      if listHasPre sep l && !sep.isEmpty then
        acc.reverse :: pySplitAux sep fuel [] (List.drop (sep.length - 1) rest)
      else
        pySplitAux sep fuel (c :: acc) rest

/-- Python `s.split(sep)` for a non-empty separator. -/
def pySplit (s sep : String) : List String :=
  (pySplitAux sep.data s.data.length [] s.data).map String.mk

/-- Abstraction of the path search done by OpenSSL inside
`X509StoreContext.verify_certificate`: walk up issuer links, resolving each
issuer inside the store, until a self-signed certificate with a valid
signature is reached; every certificate on the way must carry a valid
signature.  `fuel` bounds the walk (the store is finite). -/
def chainToRoot : Nat → List Cert → Cert → Bool
  | 0, _, _ => false
  | Nat.succ fuel, store, c =>
    if !c.sigValid then false
    else if c.subject == c.issuer then true
    else
      match store.find? (fun p => p.subject == c.issuer) with
      | none => false
      | some p => chainToRoot fuel store p

/-- Model of `crypto.X509StoreContext(store, c).verify_certificate()`:
`true` stands for the Python call returning `None` (validation success),
`false` for it raising `X509StoreContextError` (validation failure). -/
def verify_certificate (store : List Cert) (c : Cert) : Bool :=
  chainToRoot (store.length + 1) store c

/-- Lines 79-84 of `src/ssl-cert.py`: load each intermediate PEM with
`crypto.load_certificate` (outside any `try`, so a malformed one raises)
and `ROOT_STORE.add_cert` it, mutating the shared global store. -/
def loadAndAdd (store : List Cert) : List Pem → Except Unit (List Cert)
  | [] => Except.ok store
  | p :: ps =>
    match load_certificate p with
    | Except.error e => Except.error e
    | Except.ok c => loadAndAdd (store ++ [c]) ps

/-- Model of `verify_chain_of_trust(cert_pem, trusted_cert_pems)`
(lines 63-101 of `src/ssl-cert.py`).  The global `ROOT_STORE` is threaded
explicitly: the call takes the store before the call and returns, together
with the boolean verification result, the store as the call leaves it.
Walkthrough of the source:
* line 76: `crypto.load_certificate` on the leaf, outside the `try` —
  a malformed leaf raises (`Except.error`);
* lines 79-84: `if trusted_cert_pems:` (an empty or absent list is falsy,
  so nothing is added); otherwise each intermediate is loaded (outside the
  `try`) and added to the shared `ROOT_STORE`;
* lines 87-101: a store context over the (possibly mutated) `ROOT_STORE`;
  `verify_certificate` runs inside `try`, every exception is caught and
  turned into `result=False`, and the function returns `True` exactly when
  verification succeeded. -/
def verify_chain_of_trust (rootStore : List Cert) (cert_pem : Pem)
    (trusted_cert_pems : List Pem) : Except Unit (Bool × List Cert) :=
  match load_certificate cert_pem with
  | Except.error e => Except.error e
  | Except.ok certificate =>
    match (if trusted_cert_pems.isEmpty then Except.ok rootStore
           else loadAndAdd rootStore trusted_cert_pems) with
    | Except.error e => Except.error e
    | Except.ok store => Except.ok (verify_certificate store certificate, store)

/-- The value the script keeps in the variable `san` inside
`extract_x509_info`: it starts as the Python string `''` and is overwritten
with a list of strings whenever a subjectAltName extension is found. -/
inductive SanVal where
  | pyStr (s : String)
  | pyList (l : List String)
deriving DecidableEq

/-- Line 54 of `src/ssl-cert.py`:
`ext.__str__().replace('DNS', '').replace(':', '').split(', ')`. -/
def san_of_ext (e : X509Ext) : List String :=
  pySplit (pyReplace (pyReplace e.display "DNS" "") ":" "") ", "

/-- The condition on line 53: `'subjectAltName' in str(ext.get_short_name())`. -/
def isSanExt (e : X509Ext) : Bool :=
  pyIn "subjectAltName" e.shortName

/-- Lines 49-54 of `src/ssl-cert.py`: `san = ''`, then a loop over all
extensions that overwrites `san` on every matching extension (there is no
`break`, so a later subjectAltName extension overwrites an earlier one). -/
def scan_san (exts : List X509Ext) : SanVal :=
  exts.foldl (fun acc e => if isSanExt e then SanVal.pyList (san_of_ext e) else acc)
    (SanVal.pyStr "")

/-- Model of `extract_x509_info(chain)` (lines 42-60 of `src/ssl-cert.py`),
with the global `ROOT_STORE` threaded explicitly as in
`verify_chain_of_trust`.  `chain[0]` is loaded (raising on a malformed
leaf or an empty chain), the extension loop computes `san`, then the chain
of trust is verified — its boolean result is discarded, but an exception
it raises propagates and the store mutation it performs persists — and
`san` is returned. -/
def extract_x509_info (rootStore : List Cert) (chain : List Pem) :
    Except Unit (SanVal × List Cert) :=
  match chain with
  | [] => Except.error ()
  | leafPem :: rest =>
    match load_certificate leafPem with
    | Except.error e => Except.error e
    | Except.ok x509cert =>
      let san := scan_san x509cert.exts
      match (if rest.length > 0 then verify_chain_of_trust rootStore leafPem rest
             else verify_chain_of_trust rootStore leafPem []) with
      | Except.error e => Except.error e
      | Except.ok (_, store) => Except.ok (san, store)

/-- Model of `load_ca_root()` (lines 23-39 of `src/ssl-cert.py`).  The
input is the result of opening and `pem.parse`-ing the bundle at
`certifi.where()`: `none` when the open raises an `EnvironmentError`
(which the function catches, printing a warning and returning the still
empty store), `some pems` the list of PEM blocks found (possibly empty).
Each block goes through `crypto.load_certificate`; a `crypto.Error` it
raises is not an `EnvironmentError`, so it escapes the `except` clause and
propagates.  In every non-raising case a store is returned — there is no
failure result for an unreadable or empty source. -/
def load_ca_root (source : Option (List Pem)) : Except Unit (List Cert) :=
  match source with
  | none => Except.ok []
  | some pems => loadAndAdd [] pems

/-- One entry of the `cert_list` handed to `grade_ssl`: the fields the
grader consults, flattened (`cipher_name` is `cert['cipher']['name']`,
`pubkey_bits` is `cert['pubkey']['bits']`, `version` is the list of
supported protocol labels `service['ssl']['versions']`). -/
structure CertRecord where
  sig_alg : String
  cipher_name : String
  pubkey_bits : Int
  expired : Bool
  version : List String
deriving DecidableEq

/-- The cipher test on lines 124-128 of `src/ssl-cert.py`:
`'RSA' not in name or 'ADH' in name or 'CBC' in name or 'RC4' in name
or 'TLS-RSA' in name` (Python `in` on a string is substring containment). -/
def bad_cipher (name : String) : Bool :=
  !pyIn "RSA" name || pyIn "ADH" name || pyIn "CBC" name || pyIn "RC4" name ||
    pyIn "TLS-RSA" name

/-- The six warnings `grade_ssl` can print for one record, in the order of
the `if` statements on lines 116-148 of `src/ssl-cert.py`. -/
inductive Warning where
  | weakSig
  | badCipher
  | weakKey
  | certExpired
  | sslv3
  | tlsv1
deriving DecidableEq

/-- Model of one iteration of the loop in `grade_ssl` (lines 113-152 of
`src/ssl-cert.py`): the ordered list of warnings printed for one record.
The six conditions, in source order:
* line 116: `cert['sig_alg'] != 'sha256WithRSAEncryption'`;
* lines 124-128: the `bad_cipher` disjunction over the cipher name;
* line 133: `cert['pubkey']['bits'] < 2048`;
* line 137: `cert['expired']`;
* line 142: `'SSLv3' in cert['version']` — `version` is a list, so Python
  `in` is exact element membership, not substring matching;
* line 146: `'TLSv1' in cert['version']` — likewise exact membership.
The local flag `warning` is `True` at the end of the iteration exactly when
this list is non-empty (then line 152 prints the REVIEW line).  The
function keeps no score and returns `None`; the unconditional cipher print
on line 123 is not a warning and is not modelled. -/
def grade_ssl_warnings (cert : CertRecord) : List Warning :=
  (if decide (cert.sig_alg ≠ "sha256WithRSAEncryption") then [Warning.weakSig] else []) ++
  (if bad_cipher cert.cipher_name then [Warning.badCipher] else []) ++
  (if decide (cert.pubkey_bits < 2048) then [Warning.weakKey] else []) ++
  (if cert.expired then [Warning.certExpired] else []) ++
  (if decide ("SSLv3" ∈ cert.version) then [Warning.sslv3] else []) ++
  (if decide ("TLSv1" ∈ cert.version) then [Warning.tlsv1] else [])

/-- Model of `grade_ssl(cert_list)` itself: the loop over the records. -/
def grade_ssl (cert_list : List CertRecord) : List (List Warning) :=
  cert_list.map grade_ssl_warnings

/-- The chain-verification outcome consumed by the grading policy
(spec §3): `Trusted` or `UntrustedReason reason`. -/
inductive ChainResult where
  | Trusted
  | UntrustedReason (reason : String)
deriving DecidableEq

/-- A grading outcome: running score and ordered findings (spec §3). -/
structure GradeResult where
  score : Int
  findings : List String
deriving DecidableEq

/-- One grading rule: a firing condition over the record and the chain
result, a fixed penalty, and the finding it appends. -/
structure GradeRule where
  fires : CertRecord → ChainResult → Bool
  penalty : Nat
  finding : String

/-- Modelled from the spec: the scoring variant of `grade_ssl`.  The
repository is described as ~480 lines across near-duplicate variants
(spec §2) of which only `src/ssl-cert.py` (242 lines) is provided; the
variant carrying the score/findings mechanics of spec §4.4 (start at 100,
fixed penalty per fired rule, ordered findings, rule 7 on the chain result
evaluated last, no floor — spec §9 speaks of "the source's floor-less
score") is missing.  The seven firing conditions and their order follow
spec §4.4; conditions 1-6 are exactly the six tests of `grade_ssl` in
`src/ssl-cert.py` (lines 116-148), which the spec says rules 1-6 were
written from. -/
def gradeRules : List GradeRule :=
  [ ⟨fun c _ => decide (c.sig_alg ≠ "sha256WithRSAEncryption"), 10,
      "WARNING signature algorith weak"⟩,
    ⟨fun c _ => bad_cipher c.cipher_name, 10, "WARNING bad cipher"⟩,
    ⟨fun c _ => decide (c.pubkey_bits < 2048), 10, "WARNING bits"⟩,
    ⟨fun c _ => c.expired, 10, "WARNING EXPIRED CERT"⟩,
    ⟨fun c _ => decide ("SSLv3" ∈ c.version), 10, "WARNING SSLv3 SUPPORTED"⟩,
    ⟨fun c _ => decide ("TLSv1" ∈ c.version), 10, "WARNING TLSv1 SUPPORTED"⟩,
    ⟨fun _ ch => match ch with
                 | ChainResult.Trusted => false
                 | ChainResult.UntrustedReason _ => true, 20,
      "chain of trust validation failed"⟩ ]

/-- Applying one rule to a running `GradeResult`: when the rule fires it
subtracts the penalty and appends the finding, otherwise it leaves the
result unchanged. -/
def applyRule (c : CertRecord) (ch : ChainResult) (g : GradeResult)
    (rule : GradeRule) : GradeResult :=
  if rule.fires c ch then
    ⟨g.score - (rule.penalty : Int), g.findings ++ [rule.finding]⟩
  else g

/-- Modelled from the spec: the state of the grading engine after the
first `k` rules have been evaluated, starting from score 100 and no
findings (spec §4.4). -/
def grade_after (c : CertRecord) (ch : ChainResult) (k : Nat) : GradeResult :=
  (gradeRules.take k).foldl (applyRule c ch) ⟨100, []⟩

/-- Modelled from the spec: grading one record — all seven rules in order
(spec §4.4). -/
def grade_record (c : CertRecord) (ch : ChainResult) : GradeResult :=
  gradeRules.foldl (applyRule c ch) ⟨100, []⟩

/-- The store left behind by a verification call that received `inters` as
intermediates: unchanged when there are none (`if trusted_cert_pems:` is
falsy), otherwise the shared store with every intermediate appended. -/
def storeAfter (rootStore inters : List Cert) : List Cert :=
  if inters.isEmpty then rootStore else rootStore ++ inters

theorem loadAndAdd_wf : ∀ (inters store : List Cert),
    loadAndAdd store (inters.map Pem.wellFormed) = Except.ok (store ++ inters) := by
  intro inters
  induction inters with
  | nil => intro store; simp [loadAndAdd]
  | cons c cs ih =>
    intro store
    simp only [List.map_cons, loadAndAdd, load_certificate]
    rw [ih]
    simp

theorem verify_chain_wf (rootStore : List Cert) (leaf : Cert) (inters : List Cert) :
    verify_chain_of_trust rootStore (Pem.wellFormed leaf) (inters.map Pem.wellFormed)
      = Except.ok (verify_certificate (storeAfter rootStore inters) leaf,
          storeAfter rootStore inters) := by
  cases inters with
  | nil => rfl
  | cons c cs =>
    have h := loadAndAdd_wf (c :: cs) rootStore
    simp only [List.map_cons] at h
    simp [verify_chain_of_trust, load_certificate, storeAfter, h]

theorem extract_wf (rootStore : List Cert) (c : Cert) (inters : List Cert) :
    extract_x509_info rootStore (Pem.wellFormed c :: inters.map Pem.wellFormed)
      = Except.ok (scan_san c.exts, storeAfter rootStore inters) := by
  cases inters with
  | nil =>
    have h := verify_chain_wf rootStore c []
    simp only [List.map_nil] at h
    simp [extract_x509_info, load_certificate, h, storeAfter]
  | cons i is =>
    have h := verify_chain_wf rootStore c (i :: is)
    simp only [List.map_cons] at h
    simp [extract_x509_info, load_certificate, h]

theorem scan_san_skip : ∀ (exts : List X509Ext) (acc : SanVal),
    (∀ e ∈ exts, isSanExt e = false) →
    exts.foldl (fun acc e => if isSanExt e then SanVal.pyList (san_of_ext e) else acc) acc
      = acc := by
  intro exts
  induction exts with
  | nil => intro acc _; rfl
  | cons e es ih =>
    intro acc h
    have he : isSanExt e = false := h e (List.mem_cons_self e es)
    simp only [List.foldl_cons, he, if_neg]
    exact ih acc (fun x hx => h x (List.mem_cons_of_mem e hx))

theorem scan_san_none (exts : List X509Ext) (h : ∀ e ∈ exts, isSanExt e = false) :
    scan_san exts = SanVal.pyStr "" :=
  scan_san_skip exts (SanVal.pyStr "") h

theorem scan_san_last (pre post : List X509Ext) (e : X509Ext)
    (he : isSanExt e = true) (hpost : ∀ x ∈ post, isSanExt x = false) :
    scan_san (pre ++ e :: post) = SanVal.pyList (san_of_ext e) := by
  unfold scan_san
  rw [List.foldl_append, List.foldl_cons, he]
  simp only [if_pos]
  exact scan_san_skip post (SanVal.pyList (san_of_ext e)) hpost

theorem applyRule_score_le (c : CertRecord) (ch : ChainResult) (g : GradeResult)
    (rule : GradeRule) : (applyRule c ch g rule).score ≤ g.score := by
  unfold applyRule
  by_cases h : rule.fires c ch = true
  · simp only [h, if_pos]
    omega
  · simp only [h]
    simp

theorem grade_after_succ_le (c : CertRecord) (ch : ChainResult) (k : Nat) :
    (grade_after c ch (k + 1)).score ≤ (grade_after c ch k).score := by
  unfold grade_after
  rw [List.take_succ, List.foldl_append]
  cases h : gradeRules[k]? with
  | none => simp [h]
  | some rule =>
    simp only [Option.toList_some, List.foldl_cons, List.foldl_nil]
    exact applyRule_score_le c ch _ rule

theorem grade_after_le_start (c : CertRecord) (ch : ChainResult) (k : Nat) :
    (grade_after c ch k).score ≤ 100 := by
  induction k with
  | zero => simp [grade_after]
  | succ n ih => exact le_trans (grade_after_succ_le c ch n) ih

theorem grade_record_eq_after (c : CertRecord) (ch : ChainResult) :
    grade_record c ch = grade_after c ch 7 := rfl

theorem grade_findings_mem :
    ∀ (rules : List GradeRule) (c : CertRecord) (ch : ChainResult) (g : GradeResult)
      (s : String), s ∈ (rules.foldl (applyRule c ch) g).findings →
      s ∈ g.findings ∨ ∃ rule, rule ∈ rules ∧ rule.fires c ch = true ∧ s = rule.finding := by
  intro rules
  induction rules with
  | nil => intro c ch g s hs; exact Or.inl hs
  | cons rule rs ih =>
    intro c ch g s hs
    rw [List.foldl_cons] at hs
    rcases ih c ch (applyRule c ch g rule) s hs with h | ⟨r, hr, hf, hsf⟩
    · unfold applyRule at h
      by_cases hfire : rule.fires c ch = true
      · rw [if_pos hfire] at h
        rcases List.mem_append.mp h with h1 | h2
        · exact Or.inl h1
        · refine Or.inr ⟨rule, List.mem_cons_self rule rs, hfire, ?_⟩
          simpa using h2
      · simp only [hfire] at h
        simp only [if_false, Bool.false_eq_true] at h
        exact Or.inl h
    · exact Or.inr ⟨r, List.mem_cons_of_mem rule hr, hf, hsf⟩

theorem badCipher_mem_iff (r : CertRecord) :
    Warning.badCipher ∈ grade_ssl_warnings r ↔ bad_cipher r.cipher_name = true := by
  unfold grade_ssl_warnings
  split_ifs <;> simp_all

theorem tlsv1_mem_iff (r : CertRecord) :
    Warning.tlsv1 ∈ grade_ssl_warnings r ↔ "TLSv1" ∈ r.version := by
  unfold grade_ssl_warnings
  split_ifs <;> simp_all

/-- The length of the value held in `san` when `extract_x509_info` returns
it: the length of the Python string, or of the list. -/
def sanLen : SanVal → Nat
  | SanVal.pyStr s => s.length
  | SanVal.pyList l => l.length

/-- A self-signed trust anchor held in the root store. -/
def rootCA : Cert := ⟨"Example Root CA", "Example Root CA", true, []⟩

/-- An intermediate certificate issued by `rootCA`. -/
def interCA : Cert := ⟨"Example Intermediate CA", "Example Root CA", true, []⟩

/-- A leaf issued by `interCA`. -/
def leafA : Cert := ⟨"a.example", "Example Intermediate CA", true, []⟩

/-- A second, unrelated leaf issued by `interCA`. -/
def leafB : Cert := ⟨"b.example", "Example Intermediate CA", true, []⟩

/-- A leaf certificate with one extension and no subjectAltName extension. -/
def certNoSan : Cert :=
  ⟨"www.wpi.edu", "Example Intermediate CA", true, [⟨"basicConstraints", "CA:FALSE"⟩]⟩

/-- A subjectAltName extension with two DNS entries. -/
def sanExtA : X509Ext := ⟨"subjectAltName", "DNS:a.example, DNS:alt.a.example"⟩

/-- A second subjectAltName extension with one DNS entry. -/
def sanExtB : X509Ext := ⟨"subjectAltName", "DNS:b.example"⟩

/-- A leaf that declares the subjectAltName extension twice. -/
def certTwoSans : Cert := ⟨"a.example", "Example Intermediate CA", true, [sanExtA, sanExtB]⟩

/-- A leaf with two subjectAltName extensions followed by an unrelated one. -/
def certSanMid : Cert :=
  ⟨"a.example", "Example Intermediate CA", true,
    [sanExtA, sanExtB, ⟨"basicConstraints", "CA:FALSE"⟩]⟩

/-- A record with no disqualifying attribute (the protocol list holds only
labels different from the exact strings `SSLv3` and `TLSv1`). -/
def cleanRecord : CertRecord :=
  ⟨"sha256WithRSAEncryption", "ECDHE-RSA-AES256-GCM-SHA384", 4096, false,
    ["TLSv1.3", "TLSv1.2"]⟩

/-- A record whose only weakness is a 1024-bit public key. -/
def weakKeyRecord : CertRecord :=
  ⟨"sha256WithRSAEncryption", "ECDHE-RSA-AES256-GCM-SHA384", 1024, false, ["TLSv1.2"]⟩

/-- A record whose protocol list holds the single label `TLSv1.2`. -/
def tls12Record : CertRecord :=
  ⟨"sha256WithRSAEncryption", "ECDHE-RSA-AES128-GCM-SHA256", 2048, false, ["TLSv1.2"]⟩

/-- A record whose protocol list holds the exact label `TLSv1`. -/
def tlsExactRecord : CertRecord :=
  ⟨"sha256WithRSAEncryption", "ECDHE-RSA-AES128-GCM-SHA256", 2048, false, ["TLSv1"]⟩

/-- C1: the claim states that `verify_chain_of_trust` leaves the shared
Root Store unchanged and that two verifications against the same store
cannot affect each other.  The code does the opposite: line 84 of
`src/ssl-cert.py` runs `ROOT_STORE.add_cert(trusted_cert)` on the shared
global store.  Evaluating the model at a concrete input: a verification
that supplies the intermediate `interCA` leaves the store enlarged by
`interCA`, and a later verification of an unrelated leaf issued by
`interCA` (with no intermediates of its own) succeeds against the leaked
store where it fails against the original store — cross-call leakage. -/
theorem c1_verify_mutates_root_store :
    verify_chain_of_trust [rootCA] (Pem.wellFormed leafA) [Pem.wellFormed interCA]
        = Except.ok (true, [rootCA, interCA]) ∧
    [rootCA, interCA] ≠ [rootCA] ∧
    verify_chain_of_trust [rootCA, interCA] (Pem.wellFormed leafB) []
        = Except.ok (true, [rootCA, interCA]) ∧
    verify_chain_of_trust [rootCA] (Pem.wellFormed leafB) []
        = Except.ok (false, [rootCA]) :=
  ⟨rfl, by decide, rfl, rfl⟩

/-- C2 (spec-modelled scoring engine): a record that triggers none of the
seven rules — strong signature algorithm, acceptable cipher,
`publicKeyBits >= 2048`, not expired, no `SSLv3` and no `TLSv1` label in
the supported-protocol list — graded with a `Trusted` chain yields score
exactly 100 and an empty findings list; the score starts at 100 and is
monotonically non-increasing through rule evaluation. -/
theorem c2_clean_record_scores_100 (r : CertRecord)
    (h1 : r.sig_alg = "sha256WithRSAEncryption")
    (h2 : bad_cipher r.cipher_name = false)
    (h3 : 2048 ≤ r.pubkey_bits)
    (h4 : r.expired = false)
    (h5 : "SSLv3" ∉ r.version)
    (h6 : "TLSv1" ∉ r.version) :
    grade_record r ChainResult.Trusted = ⟨100, []⟩ ∧
    grade_after r ChainResult.Trusted 0 = ⟨100, []⟩ ∧
    ∀ (c : CertRecord) (ch : ChainResult) (k : Nat),
      (grade_after c ch (k + 1)).score ≤ (grade_after c ch k).score := by
  refine ⟨?_, rfl, fun c ch k => grade_after_succ_le c ch k⟩
  have h3' : decide (r.pubkey_bits < 2048) = false := by
    simp only [decide_eq_false_iff_not]
    omega
  have h5' : decide ("SSLv3" ∈ r.version) = false := by
    simp only [decide_eq_false_iff_not]
    exact h5
  have h6' : decide ("TLSv1" ∈ r.version) = false := by
    simp only [decide_eq_false_iff_not]
    exact h6
  simp [grade_record, gradeRules, applyRule, h1, h2, h3', h4, h5', h6']

/-- C2 witness: a concrete clean record graded with a Trusted chain gets
score 100 and no findings. -/
theorem c2_witness : grade_record cleanRecord ChainResult.Trusted = ⟨100, []⟩ :=
  (c2_clean_record_scores_100 cleanRecord rfl (by decide) (by decide) rfl
    (by decide) (by decide)).1

/-- C3 (spec-modelled scoring engine): rule 7 fires exactly on a
non-`Trusted` chain result, subtracts 20, and is evaluated last.  A record
whose only weakness is a sub-2048-bit key, graded with an untrusted chain,
scores 70 with the weak-key finding before the chain finding; in general
an untrusted chain turns the grade of the same record from its `Trusted`
grade by subtracting 20 and appending the chain finding at the very end,
and a `Trusted` chain never produces the chain finding. -/
theorem c3_chain_rule_last (r : CertRecord) (reason : String)
    (h1 : r.sig_alg = "sha256WithRSAEncryption")
    (h2 : bad_cipher r.cipher_name = false)
    (h3 : r.pubkey_bits < 2048)
    (h4 : r.expired = false)
    (h5 : "SSLv3" ∉ r.version)
    (h6 : "TLSv1" ∉ r.version) :
    grade_record r (ChainResult.UntrustedReason reason)
        = ⟨70, ["WARNING bits", "chain of trust validation failed"]⟩ ∧
    (∀ (c : CertRecord) (s : String),
      grade_record c (ChainResult.UntrustedReason s)
        = ⟨(grade_record c ChainResult.Trusted).score - 20,
           (grade_record c ChainResult.Trusted).findings
             ++ ["chain of trust validation failed"]⟩) ∧
    (∀ (c : CertRecord),
      "chain of trust validation failed" ∉ (grade_record c ChainResult.Trusted).findings) := by
  refine ⟨?_, fun c s => rfl, fun c hmem => ?_⟩
  · have h3' : decide (r.pubkey_bits < 2048) = true := by
      simp only [decide_eq_true_eq]
      exact h3
    have h5' : decide ("SSLv3" ∈ r.version) = false := by
      simp only [decide_eq_false_iff_not]
      exact h5
    have h6' : decide ("TLSv1" ∈ r.version) = false := by
      simp only [decide_eq_false_iff_not]
      exact h6
    simp [grade_record, gradeRules, applyRule, h1, h2, h3', h4, h5', h6']
  · rcases grade_findings_mem gradeRules c ChainResult.Trusted ⟨100, []⟩ _ hmem with
      h | ⟨rule, hr, hf, hsf⟩
    · simp at h
    · simp only [gradeRules, List.mem_cons, List.not_mem_nil, or_false] at hr
      rcases hr with rfl | rfl | rfl | rfl | rfl | rfl | rfl <;>
        first
        | exact Bool.noConfusion hf
        | simp at hsf

/-- C3 witness: a concrete record with a weak key and an untrusted chain
scores 70 with the weak-key finding first. -/
theorem c3_witness :
    grade_record weakKeyRecord
        (ChainResult.UntrustedReason "unable to get local issuer certificate")
      = ⟨70, ["WARNING bits", "chain of trust validation failed"]⟩ :=
  (c3_chain_rule_last weakKeyRecord "unable to get local issuer certificate" rfl
    (by decide) (by decide) rfl (by decide) (by decide)).1

/-- C4: the cipher rule of `grade_ssl` (lines 124-128 of
`src/ssl-cert.py`) fires exactly when the cipher name lacks the `RSA`
substring or contains one of `ADH`, `CBC`, `RC4`, `TLS-RSA`; with the
`RSA` marker present and all four disqualifying markers absent it never
fires, and without the `RSA` marker it always fires. -/
theorem c4_cipher_rule (r : CertRecord) :
    (Warning.badCipher ∈ grade_ssl_warnings r ↔
      (pyIn "RSA" r.cipher_name = false ∨ pyIn "ADH" r.cipher_name = true ∨
       pyIn "CBC" r.cipher_name = true ∨ pyIn "RC4" r.cipher_name = true ∨
       pyIn "TLS-RSA" r.cipher_name = true)) ∧
    (pyIn "RSA" r.cipher_name = true ∧ pyIn "ADH" r.cipher_name = false ∧
     pyIn "CBC" r.cipher_name = false ∧ pyIn "RC4" r.cipher_name = false ∧
     pyIn "TLS-RSA" r.cipher_name = false →
       Warning.badCipher ∉ grade_ssl_warnings r) ∧
    (pyIn "RSA" r.cipher_name = false → Warning.badCipher ∈ grade_ssl_warnings r) := by
  have hb : bad_cipher r.cipher_name = true ↔
      (pyIn "RSA" r.cipher_name = false ∨ pyIn "ADH" r.cipher_name = true ∨
       pyIn "CBC" r.cipher_name = true ∨ pyIn "RC4" r.cipher_name = true ∨
       pyIn "TLS-RSA" r.cipher_name = true) := by
    simp [bad_cipher, Bool.or_eq_true, Bool.not_eq_true', or_assoc]
  have hm := (badCipher_mem_iff r).trans hb
  refine ⟨hm, ?_, fun h => hm.mpr (Or.inl h)⟩
  rintro ⟨g1, g2, g3, g4, g5⟩ hmem
  rcases hm.mp hmem with h | h | h | h | h <;> simp_all

/-- C4 witness: a concrete cipher name with the RSA marker and none of
the four disqualifying markers does not trigger the cipher warning. -/
theorem c4_witness : Warning.badCipher ∉ grade_ssl_warnings cleanRecord :=
  (c4_cipher_rule cleanRecord).2.1
    ⟨by decide, by decide, by decide, by decide, by decide⟩

/-- C5 counterexample: the claim says rule 6 matches `TLSv1` as a
substring of each protocol label, firing for a label such as `TLSv1.2`.
In the code `cert['version']` is a list of labels, so the Python `in` on
line 146 is exact element membership: for a record whose protocol list is
`["TLSv1.2"]` the string `TLSv1` is a substring of the only label, yet the
rule does not fire. -/
theorem c5_cx_substring_no_fire :
    pyIn "TLSv1" "TLSv1.2" = true ∧
    Warning.tlsv1 ∉ grade_ssl_warnings tls12Record ∧
    (grade_record tls12Record ChainResult.Trusted).score = 100 := by decide

/-- C5 (amended): rule 6 tests exact membership of the label `TLSv1` in
the supported-protocol list, so it fires exactly when the list contains
the element `TLSv1`; labels merely containing `TLSv1` as a substring,
such as `TLSv1.1`, `TLSv1.2` or `TLSv1.3`, do not trigger it. -/
theorem c5_tlsv1_exact_membership (r : CertRecord) :
    Warning.tlsv1 ∈ grade_ssl_warnings r ↔ "TLSv1" ∈ r.version :=
  tlsv1_mem_iff r

/-- C5 witness: the exact label `TLSv1` does trigger rule 6. -/
theorem c5_witness : Warning.tlsv1 ∈ grade_ssl_warnings tlsExactRecord :=
  (c5_tlsv1_exact_membership tlsExactRecord).mpr (by decide)

/-- C6 counterexample: the claim says no input, malformed ones included,
makes `verify_chain_of_trust` propagate an exception.  The
`crypto.load_certificate` calls on lines 76 and 82 of `src/ssl-cert.py`
are outside the `try` block, so a malformed intermediate — and likewise a
malformed leaf — raises out of the function instead of producing a
non-Trusted result. -/
theorem c6_cx_malformed_raises :
    verify_chain_of_trust [rootCA] (Pem.wellFormed leafA) [Pem.malformed]
        = Except.error () ∧
    verify_chain_of_trust [rootCA] Pem.malformed [] = Except.error () :=
  ⟨rfl, rfl⟩

/-- C6 (amended): only the verification step is guarded: for a well-formed
leaf and well-formed intermediates the call never raises — it returns the
boolean outcome of `verify_certificate` (False on a failed path, never an
exception) together with the store it leaves behind; exceptions can escape
only from the certificate-loading calls, which sit outside the `try`. -/
theorem c6_wellformed_never_raises (rootStore : List Cert) (leaf : Cert)
    (inters : List Cert) :
    verify_chain_of_trust rootStore (Pem.wellFormed leaf) (inters.map Pem.wellFormed)
      = Except.ok (verify_certificate (storeAfter rootStore inters) leaf,
          storeAfter rootStore inters) :=
  verify_chain_wf rootStore leaf inters

/-- C7 counterexample: the claim says `load_ca_root` fails rather than
returning a store when the trust-anchor source cannot be read or holds
zero parseable certificates.  The code catches the read error, prints a
warning and returns the still-empty store, and an empty bundle likewise
yields an empty store — in both cases a store is returned and no error is
reported. -/
theorem c7_cx_load_returns_store :
    load_ca_root none = Except.ok [] ∧ load_ca_root (some []) = Except.ok [] :=
  ⟨rfl, rfl⟩

/-- C7 (amended): `load_ca_root` never reports a trust-store failure: an
unreadable source yields the empty store (after a printed warning) and a
readable bundle yields exactly its parseable certificates, the empty
bundle included; the run then proceeds to grade against whatever store was
returned. -/
theorem c7_load_never_fails (certs : List Cert) :
    load_ca_root none = Except.ok [] ∧
    load_ca_root (some (certs.map Pem.wellFormed)) = Except.ok certs := by
  refine ⟨rfl, ?_⟩
  have h := loadAndAdd_wf certs []
  simpa [load_ca_root] using h

/-- C8: for a well-formed leaf none of whose extensions is a
subjectAltName extension (zero extensions included), `extract_x509_info`
succeeds and returns the initial value of `san` — the empty Python string,
an empty sequence — rather than an error. -/
theorem c8_no_san_empty (rootStore : List Cert) (c : Cert) (inters : List Cert)
    (h : ∀ e ∈ c.exts, isSanExt e = false) :
    extract_x509_info rootStore (Pem.wellFormed c :: inters.map Pem.wellFormed)
        = Except.ok (SanVal.pyStr "", storeAfter rootStore inters) ∧
    sanLen (SanVal.pyStr "") = 0 := by
  have hw := extract_wf rootStore c inters
  rw [scan_san_none c.exts h] at hw
  exact ⟨hw, rfl⟩

/-- C8 witness: a concrete certificate with one extension and no
subjectAltName extension parses to the empty `san` value. -/
theorem c8_witness :
    extract_x509_info [rootCA] [Pem.wellFormed certNoSan]
        = Except.ok (SanVal.pyStr "", [rootCA]) ∧
    sanLen (SanVal.pyStr "") = 0 :=
  c8_no_san_empty [rootCA] certNoSan [] (by decide)

/-- C9 counterexample: the claim says the first-declared subjectAltName
extension wins.  The loop on lines 51-54 of `src/ssl-cert.py` has no
`break` and overwrites `san` on every match, so for a certificate whose
extension list holds two subjectAltName extensions the returned entries
are those of the second one, not of the first. -/
theorem c9_cx_last_overwrites :
    extract_x509_info [rootCA] [Pem.wellFormed certTwoSans]
        = Except.ok (SanVal.pyList ["b.example"], [rootCA]) ∧
    san_of_ext sanExtA = ["a.example", "alt.a.example"] ∧
    SanVal.pyList ["b.example"] ≠ SanVal.pyList ["a.example", "alt.a.example"] :=
  ⟨rfl, rfl, by decide⟩

/-- C9 (amended): when the subjectAltName extension is declared more than
once, `extract_x509_info` returns the entries of the last-declared
matching extension (last-wins): whatever matching extensions precede it,
the final overwrite comes from the last extension whose short name
matches, and extensions after it leave `san` unchanged. -/
theorem c9_last_san_wins (rootStore : List Cert) (c : Cert) (inters : List Cert)
    (pre post : List X509Ext) (e : X509Ext)
    (hexts : c.exts = pre ++ e :: post)
    (he : isSanExt e = true)
    (hpost : ∀ x ∈ post, isSanExt x = false) :
    extract_x509_info rootStore (Pem.wellFormed c :: inters.map Pem.wellFormed)
      = Except.ok (SanVal.pyList (san_of_ext e), storeAfter rootStore inters) := by
  have hw := extract_wf rootStore c inters
  rw [hexts, scan_san_last pre post e he hpost] at hw
  exact hw

/-- C9 witness: with two subjectAltName extensions followed by an
unrelated extension, the second subjectAltName extension wins. -/
theorem c9_witness :
    extract_x509_info [rootCA] [Pem.wellFormed certSanMid]
      = Except.ok (SanVal.pyList ["b.example"], [rootCA]) :=
  c9_last_san_wins [rootCA] certSanMid [] [sanExtA]
    [⟨"basicConstraints", "CA:FALSE"⟩] sanExtB rfl (by decide) (by decide)

/-- C10: the SAN value `extract_x509_info` returns is a function of the
leaf alone: two calls sharing the leaf but differing in their intermediate
lists and in the store they verify against — hence possibly in their
chain-verification outcome — both return exactly `scan_san` of the leaf's
extensions; the verification result is computed and discarded. -/
theorem c10_san_depends_only_on_leaf (r1 r2 : List Cert) (c : Cert)
    (i1 i2 : List Cert) :
    extract_x509_info r1 (Pem.wellFormed c :: i1.map Pem.wellFormed)
        = Except.ok (scan_san c.exts, storeAfter r1 i1) ∧
    extract_x509_info r2 (Pem.wellFormed c :: i2.map Pem.wellFormed)
        = Except.ok (scan_san c.exts, storeAfter r2 i2) :=
  ⟨extract_wf r1 c i1, extract_wf r2 c i2⟩
